import Mathlib

/-!
Verification of the tax-dashboard engine specification and of the client's
token handling.  The repository's own files are the React/axios client
(`client/src/api.ts`, `client/src/App.tsx`, ...); the backend computation
engine is specified in `spec.md` but its code is not part of the given
files, so the engine definitions below are modelled from the spec, while
the client definitions are translated from the client source.
-/

/-- Modelled from the spec: holding-period term classification
("short-term / long-term"), §3/§4.1.  The backend engine code is not in
the repository. -/
inductive Term where
  | short
  | long
deriving DecidableEq

/-- Modelled from the spec: per-user tax-rate configuration (§3
TaxProfile; mirrors the client's TaxProfileIn type in
client/src/types.ts).  `filing_status` and `state_code` play no role in
any computation and are omitted.  Rates and amounts use ℚ, following the
spec's §9 requirement of a fixed-point/decimal numeric type. -/
structure TaxProfile where
  federal_st_rate : ℚ
  federal_lt_rate : ℚ
  state_st_rate : ℚ
  state_lt_rate : ℚ
  niit_rate : ℚ
  carry_forward_losses : ℚ
deriving DecidableEq

/-- Modelled from the spec: an open tax lot (§3 Lot).  Purchase dates are
day numbers (ℕ), which is all the engine ever uses of them (differences
and ordering). -/
structure Lot where
  symbol : String
  lot_id : Option Nat
  quantity : ℚ
  cost_per_share : ℚ
  purchase_date : ℕ
deriving DecidableEq

/-- Modelled from the spec (§4.2): a profile is valid when no rate and no
carry-forward amount is negative (negative inputs are rejected with
InvalidProfileError). -/
def TaxProfile.Valid (p : TaxProfile) : Prop :=
  0 ≤ p.federal_st_rate ∧ 0 ≤ p.federal_lt_rate ∧ 0 ≤ p.state_st_rate ∧
    0 ≤ p.state_lt_rate ∧ 0 ≤ p.niit_rate ∧ 0 ≤ p.carry_forward_losses

instance : DecidablePred TaxProfile.Valid := fun p => by
  unfold TaxProfile.Valid
  infer_instance

/-- Modelled from the spec (§4.1): holding days = as-of date − purchase
date (≥ 0; the caller guarantees the purchase date is not in the
future). -/
def holdingDays (purchase asof : ℕ) : ℕ :=
  asof - purchase

/-- Modelled from the spec (§4.1): term = long if holding days ≥ 366,
else short. -/
def classifyTerm (hd : ℕ) : Term :=
  if 366 ≤ hd then Term.long else Term.short

/-- Modelled from the spec (§4.1): days_to_lt = max(0, 366 − holding
days); ℕ subtraction is exactly the max-with-0 truncation. -/
def daysToLT (hd : ℕ) : ℕ :=
  366 - hd

/-- Modelled from the spec (§4.2): combined federal+state rate chosen by
term. -/
def rateFor (p : TaxProfile) (t : Term) : ℚ :=
  match t with
  | Term.short => p.federal_st_rate + p.state_st_rate
  | Term.long => p.federal_lt_rate + p.state_lt_rate

/-- Modelled from the spec (§4.2 TaxEstimator): `estimate_tax(gain, term,
profile, carry_forward_in) -> (tax, carry_forward_out)`.  A non-positive
gain yields tax 0 and its magnitude is added to the carry-forward
balance reported back; a positive gain is first offset by the available
carry-forward balance (floored at 0), the remaining taxable gain is
taxed at the term's federal+state rate, and an NIIT surcharge of taxable
gain × niit_rate is added when niit_rate > 0. -/
def estimate_tax (gain : ℚ) (t : Term) (p : TaxProfile) (cf : ℚ) : ℚ × ℚ :=
  if gain ≤ 0 then
    (0, cf + (-gain))
  else
    let taxable := max 0 (gain - cf)
    let cfOut := max 0 (cf - gain)
    let base := taxable * rateFor p t
    let niit := if 0 < p.niit_rate then taxable * p.niit_rate else 0
    (base + niit, cfOut)

/-- Modelled from the spec (§3 LotResult): the per-lot valuation record
(also the client's LotResult type in client/src/types.ts).  The
`price_missing` flag records the §4.3 missing-quote sentinel case, which
is "reported distinctly". -/
structure LotResult where
  symbol : String
  quantity : ℚ
  price : ℚ
  cost_per_share : ℚ
  purchase_date : ℕ
  holding_days : ℕ
  term : Term
  unrealized_gain : ℚ
  est_tax_liability : ℚ
  after_tax_value : ℚ
  est_tax_savings : ℚ
  days_to_lt : ℕ
  price_missing : Bool
deriving DecidableEq

/-- Modelled from the spec (§4.3): effective rate used for a consumed or
valued slice: federal+state by term, plus the NIIT rate when it is
positive. -/
def effRate (p : TaxProfile) (t : Term) : ℚ :=
  rateFor p t + (if 0 < p.niit_rate then p.niit_rate else 0)

/-- Modelled from the spec (§4.3 LotValuationEngine): value one lot.  If
the symbol has no quote the lot is reported with the zero-value sentinel
(price 0, unrealized figures zeroed) and flagged; otherwise
unrealized_gain = quantity × (price − cost), est_tax_liability comes
from `estimate_tax` treating the lot in isolation (full carry-forward
balance available), after_tax_value = quantity×price − est_tax_liability
and est_tax_savings is the tax avoided by harvesting the lot now when it
is at a loss, 0 otherwise. -/
def valueLot (quote : String → Option ℚ) (p : TaxProfile) (asof : ℕ) (lot : Lot) :
    LotResult :=
  let hd := holdingDays lot.purchase_date asof
  let t := classifyTerm hd
  match quote lot.symbol with
  | none =>
    { symbol := lot.symbol, quantity := lot.quantity, price := 0,
      cost_per_share := lot.cost_per_share, purchase_date := lot.purchase_date,
      holding_days := hd, term := t, unrealized_gain := 0,
      est_tax_liability := 0, after_tax_value := 0, est_tax_savings := 0,
      days_to_lt := daysToLT hd, price_missing := true }
  | some price =>
    let gain := lot.quantity * (price - lot.cost_per_share)
    let tax := (estimate_tax gain t p p.carry_forward_losses).1
    let savings := if gain < 0 then (-gain) * effRate p t else 0
    { symbol := lot.symbol, quantity := lot.quantity, price := price,
      cost_per_share := lot.cost_per_share, purchase_date := lot.purchase_date,
      holding_days := hd, term := t, unrealized_gain := gain,
      est_tax_liability := tax, after_tax_value := lot.quantity * price - tax,
      est_tax_savings := savings, days_to_lt := daysToLT hd,
      price_missing := false }

/-- Modelled from the spec (§4.3, §6): `valuation` produces one LotResult
per open lot, in input lot order (stable), mutating nothing. -/
def valuation (store : List Lot) (quote : String → Option ℚ) (p : TaxProfile)
    (asof : ℕ) : List LotResult :=
  store.map (valueLot quote p asof)

/-- Modelled from the spec (§4.6, §6): FIFO retrieval ordering — ascending
purchase date. -/
def fifoLe (a b : Lot) : Prop :=
  a.purchase_date ≤ b.purchase_date

instance fifoLeDec : DecidableRel fifoLe := fun a b =>
  Nat.decLe a.purchase_date b.purchase_date

instance fifoLeTotal : IsTotal Lot fifoLe :=
  ⟨fun a b => Nat.le_total a.purchase_date b.purchase_date⟩

instance fifoLeTrans : IsTrans Lot fifoLe :=
  ⟨fun _ _ _ hab hbc => Nat.le_trans hab hbc⟩

/-- Modelled from the spec (§4.6): "retrieve all open lots for symbol
ordered ascending by purchase date (true FIFO)".  Insertion sort is the
stable sort used for the ordering. -/
def openLotsFifo (store : List Lot) (sym : String) : List Lot :=
  List.insertionSort fifoLe (store.filter (fun l => l.symbol == sym))

/-- Modelled from the spec (§3): total open quantity held for a symbol. -/
def totalOpenQty (store : List Lot) (sym : String) : ℚ :=
  ((store.filter (fun l => l.symbol == sym)).map Lot.quantity).sum

/-- Modelled from the spec (§3 WhatIfSell): one consumed slice of
`lots_consumed`. -/
structure ConsumedLot where
  lot_id : Option Nat
  qty_used : ℚ
  term : Term
  realized_gain : ℚ
  est_tax : ℚ
deriving DecidableEq

/-- Modelled from the spec (§3 WhatIfSell): the ephemeral what-if result
(also the client's WhatIfSell type in client/src/types.ts). -/
structure WhatIfSell where
  symbol : String
  sell_quantity : ℚ
  asof_price : ℚ
  realized_gain : ℚ
  est_tax : ℚ
  lots_consumed : List ConsumedLot
deriving DecidableEq

/-- Modelled from the spec (§7): the engine error taxonomy. -/
inductive EngineError where
  | InvalidDateError
  | InvalidProfileError
  | QuoteMissingError
  | InsufficientQuantityError
deriving DecidableEq

/-- Modelled from the spec (§4.6): the FIFO walk — consume
min(lot quantity, remaining-to-sell) from each lot in turn, computing
realized_gain = qty_used × (price − cost) and est_tax via `estimate_tax`
(term-classified per lot, carry-forward threaded through the walk), and
stop when remaining-to-sell reaches 0. -/
def consumeLots (price : ℚ) (asof : ℕ) (p : TaxProfile) :
    List Lot → ℚ → ℚ → List ConsumedLot
  | [], _, _ => []
  | lot :: rest, remaining, cf =>
    if remaining ≤ 0 then []
    else
      let qtyUsed := min lot.quantity remaining
      let gain := qtyUsed * (price - lot.cost_per_share)
      let t := classifyTerm (holdingDays lot.purchase_date asof)
      let e := estimate_tax gain t p cf
      ⟨lot.lot_id, qtyUsed, t, gain, e.1⟩ ::
        consumeLots price asof p rest (remaining - qtyUsed) e.2

/-- Modelled from the spec (§4.6 WhatIfSimulator, §6): `simulate_sell`.
Fails with QuoteMissingError when the symbol has no quote and with
InsufficientQuantityError when total available quantity is below the
request (no partial result); otherwise walks the FIFO-ordered lots and
returns the WhatIfSell breakdown.  No Lot state is mutated. -/
def simulate_sell (store : List Lot) (quote : String → Option ℚ) (p : TaxProfile)
    (asof : ℕ) (sym : String) (qty : ℚ) : Except EngineError WhatIfSell :=
  match quote sym with
  | none => Except.error EngineError.QuoteMissingError
  | some price =>
    if totalOpenQty store sym < qty then
      Except.error EngineError.InsufficientQuantityError
    else
      let consumed := consumeLots price asof p (openLotsFifo store sym) qty
        p.carry_forward_losses
      Except.ok
        { symbol := sym, sell_quantity := qty, asof_price := price,
          realized_gain := (consumed.map ConsumedLot.realized_gain).sum,
          est_tax := (consumed.map ConsumedLot.est_tax).sum,
          lots_consumed := consumed }

/-- Modelled from the spec (§5, §6): the per-user snapshot a request reads
(LotStore, QuoteSource, TaxProfile). -/
structure EngineState where
  lots : List Lot
  quotes : String → Option ℚ
  profile : TaxProfile

/-- Modelled from the spec (§4.6): a `simulate_sell` request as a state
transition of the engine snapshot: it returns its value and the state it
leaves behind.  The simulation is a pure projection, so the state passes
through untouched. -/
def simulate_sell_run (s : EngineState) (asof : ℕ) (sym : String) (qty : ℚ) :
    Except EngineError WhatIfSell × EngineState :=
  (simulate_sell s.lots s.quotes s.profile asof sym qty, s)

/-- Modelled from the spec (§4.4): the deterministic processing order of
the shared carry-forward pass — ascending purchase date. -/
def resultDateLe (a b : LotResult) : Prop :=
  a.purchase_date ≤ b.purchase_date

instance resultDateLeDec : DecidableRel resultDateLe := fun a b =>
  Nat.decLe a.purchase_date b.purchase_date

instance resultDateLeTotal : IsTotal LotResult resultDateLe :=
  ⟨fun a b => Nat.le_total a.purchase_date b.purchase_date⟩

instance resultDateLeTrans : IsTrans LotResult resultDateLe :=
  ⟨fun _ _ _ hab hbc => Nat.le_trans hab hbc⟩

/-- Modelled from the spec (§4.4): one step of the single shared
carry-forward pass.  The accumulator is (gross tax on gains so far,
gross potential savings on losses so far, remaining carry-forward
balance); each lot's gain goes through `estimate_tax` with the threaded
balance, so a loss becomes available to offset later gains in the same
pass and the profile's carry-forward figure is applied once across the
portfolio. -/
def passStep (p : TaxProfile) (acc : ℚ × ℚ × ℚ) (r : LotResult) : ℚ × ℚ × ℚ :=
  let e := estimate_tax r.unrealized_gain r.term p acc.2.2
  (acc.1 + e.1, acc.2.1 + r.est_tax_savings, e.2)

/-- Modelled from the spec (§3 Summary): the aggregate record (also the
client's Summary type in client/src/types.ts). -/
structure Summary where
  pre_tax_value : ℚ
  total_unrealized_gain : ℚ
  gross_tax_on_gains : ℚ
  gross_potential_savings_on_losses : ℚ
  naive_net_tax_if_liquidated_now : ℚ
  after_tax_value_if_liquidated_now : ℚ
deriving DecidableEq

/-- Modelled from the spec (§4.4 PortfolioSummarizer, §6 summary):
aggregate the LotResults; pre-tax value and total unrealized gain by
plain summation, the tax figures by the single shared carry-forward pass
over the lots in ascending purchase-date order; naive net tax is gross
tax minus gross savings floored at 0, and after-tax value is pre-tax
value minus the net tax. -/
def summaryOf (store : List Lot) (quote : String → Option ℚ) (p : TaxProfile)
    (asof : ℕ) : Summary :=
  let results := valuation store quote p asof
  let ordered := List.insertionSort resultDateLe results
  let pass := ordered.foldl (passStep p) (0, 0, p.carry_forward_losses)
  let pre := (results.map (fun r => r.quantity * r.price)).sum
  let net := max 0 (pass.1 - pass.2.1)
  { pre_tax_value := pre,
    total_unrealized_gain := (results.map LotResult.unrealized_gain).sum,
    gross_tax_on_gains := pass.1,
    gross_potential_savings_on_losses := pass.2.1,
    naive_net_tax_if_liquidated_now := net,
    after_tax_value_if_liquidated_now := pre - net }

/-- Modelled from the spec (§3 HarvestCandidate): a ranked harvesting
opportunity (also the client's HarvestCandidate type in
client/src/types.ts; the lot-reference field plays no role in the
selection and is omitted). -/
structure HarvestCandidate where
  symbol : String
  purchase_date : ℕ
  quantity : ℚ
  cost_per_share : ℚ
  price : ℚ
  unrealized_loss : ℚ
  days_to_lt : ℕ
deriving DecidableEq

/-- Modelled from the spec (§4.5): the harvest ranking — larger loss
magnitude first, ties broken by ascending days-to-long-term. -/
def harvestLe (a b : HarvestCandidate) : Prop :=
  b.unrealized_loss < a.unrealized_loss ∨
    (a.unrealized_loss = b.unrealized_loss ∧ a.days_to_lt ≤ b.days_to_lt)

instance harvestLeDec : DecidableRel harvestLe := fun a b => by
  unfold harvestLe
  infer_instance

instance harvestLeTotal : IsTotal HarvestCandidate harvestLe := by
  constructor
  intro a b
  rcases lt_trichotomy a.unrealized_loss b.unrealized_loss with h | h | h
  · exact Or.inr (Or.inl h)
  · rcases Nat.le_total a.days_to_lt b.days_to_lt with hd | hd
    · exact Or.inl (Or.inr ⟨h, hd⟩)
    · exact Or.inr (Or.inr ⟨h.symm, hd⟩)
  · exact Or.inl (Or.inl h)

instance harvestLeTrans : IsTrans HarvestCandidate harvestLe := by
  constructor
  intro a b c hab hbc
  rcases hab with h1 | ⟨h1, hd1⟩ <;> rcases hbc with h2 | ⟨h2, hd2⟩
  · exact Or.inl (lt_trans h2 h1)
  · exact Or.inl (h2 ▸ h1)
  · exact Or.inl (h1 ▸ h2)
  · exact Or.inr ⟨h1.trans h2, hd1.trans hd2⟩

/-- Modelled from the spec (§4.5): map a losing LotResult to its
HarvestCandidate; unrealized_loss is the positive magnitude of the
unrealized gain. -/
def toCandidate (r : LotResult) : HarvestCandidate :=
  { symbol := r.symbol, purchase_date := r.purchase_date, quantity := r.quantity,
    cost_per_share := r.cost_per_share, price := r.price,
    unrealized_loss := -r.unrealized_gain, days_to_lt := r.days_to_lt }

/-- Modelled from the spec (§4.5): the qualification test — unrealized
gain strictly negative and its magnitude at least min_loss (for a
negative gain the magnitude is the negation). -/
def harvestEligible (minLoss : ℚ) (r : LotResult) : Bool :=
  decide (r.unrealized_gain < 0 ∧ minLoss ≤ -r.unrealized_gain)

/-- Modelled from the spec (§4.5 HarvestSelector, §6): filter the
LotResults to qualifying losses, sort by descending loss magnitude with
ties broken by ascending days-to-long-term, truncate to `limit`. -/
def harvest_candidates (results : List LotResult) (limit : ℕ) (minLoss : ℚ) :
    List HarvestCandidate :=
  (List.insertionSort harvestLe
    ((results.filter (harvestEligible minLoss)).map toCandidate)).take limit

/-! ### Client-side model, translated from the client source

`client/src/api.ts` keeps the access token in localStorage under the key
"taxdash_token"; `client/src/App.tsx` keeps the `authed` flag.  The
interceptors are modelled as pure transitions on that state. -/

/-- Translated from client/src/api.ts: the localStorage key holding the
token. -/
def storageKey : String := "taxdash_token"

/-- Translated from the client source: the browser-visible client state —
the stored token (localStorage, keyed by `storageKey`) and App's
`authed` flag. -/
structure ClientState where
  token : Option String
  authed : Bool
deriving DecidableEq

/-- Translated from client/src/api.ts `setToken`:
`localStorage.setItem(STORAGE_KEY, token)`. -/
def setToken (s : ClientState) (t : String) : ClientState :=
  { s with token := some t }

/-- Translated from client/src/api.ts `clearToken`:
`localStorage.removeItem(STORAGE_KEY)`. -/
def clearToken (s : ClientState) : ClientState :=
  { s with token := none }

/-- Translated from client/src/api.ts: the server's token response shape
(`TokenOut`). -/
structure TokenOut where
  access_token : String
  token_type : String
deriving DecidableEq

/-- Translated from client/src/api.ts: an axios error as the interceptor
sees it — the HTTP status of the response. -/
structure ApiError where
  status : Nat
deriving DecidableEq

/-- Translated from client/src/api.ts response interceptor together with
the App.tsx 401 effect: a successful response passes through; an error
response with status 401 clears the stored token and drops the
`authed` flag, and every error is re-raised to the caller
(`Promise.reject(err)`), never swallowed. -/
def onResponse {α : Type} (s : ClientState) (resp : Except ApiError α) :
    ClientState × Except ApiError α :=
  match resp with
  | Except.ok r => (s, Except.ok r)
  | Except.error e =>
    if e.status = 401 then
      ({ token := none, authed := false }, Except.error e)
    else
      (s, Except.error e)

/-- Translated from client/src/api.ts: the Authorization header name and
its `Bearer` value. -/
def authKey : String := "Authorization"

/-- Translated from client/src/api.ts: the attached header value,
`Bearer <token>`. -/
def bearerOf (t : String) : String := "Bearer " ++ t

/-- Translated from client/src/api.ts: a request config — url plus headers
viewed as a partial map from header name to value. -/
structure RequestConfig where
  url : String
  headers : String → Option String

/-- Translated from client/src/api.ts request interceptor: read the
stored token; when present, set `config.headers.Authorization` to
`Bearer <token>`; otherwise leave the config untouched. -/
def onRequest (s : ClientState) (cfg : RequestConfig) : RequestConfig :=
  match s.token with
  | none => cfg
  | some t =>
    { cfg with
      headers := fun k => if k = authKey then some (bearerOf t) else cfg.headers k }

/-- Translated from client/src/api.ts `signup`: POST the credentials, then
`setToken(data.access_token)` on the response data before returning it. -/
def signupStep (s : ClientState) (resp : TokenOut) : ClientState × TokenOut :=
  (setToken s resp.access_token, resp)

/-- Translated from client/src/api.ts `login`: POST the form-encoded
credentials, then `setToken(data.access_token)` on the response data
before returning it. -/
def loginStep (s : ClientState) (resp : TokenOut) : ClientState × TokenOut :=
  (setToken s resp.access_token, resp)

/-! ### Concrete fixtures used by the example clauses and witnesses -/

/-- Fixture symbol. -/
def cSym : String := "SYM"

/-- Fixture profile with all rates and carry-forward zero. -/
def cProf0 : TaxProfile := ⟨0, 0, 0, 0, 0, 0⟩

/-- Fixture profile for the carry-forward scenario: 25% + 5% short-term
rates, no NIIT, 1000 of carry-forward losses. -/
def cProfB : TaxProfile := ⟨1/4, 3/20, 1/20, 0, 0, 1000⟩

/-- Fixture lot purchased on day 0 (2023-01-01), quantity 10, cost 3. -/
def cLotA : Lot := ⟨cSym, some 1, 10, 3, 0⟩

/-- Fixture lot purchased on day 151 (2023-06-01), quantity 10, cost 4. -/
def cLotB : Lot := ⟨cSym, some 2, 10, 4, 151⟩

/-- Fixture store for the FIFO scenario. -/
def cStore : List Lot := [cLotA, cLotB]

/-- Fixture store for the insufficient-quantity scenario: total open
quantity 10. -/
def cStore1 : List Lot := [cLotA]

/-- Fixture quote source: price 5 for the fixture symbol, nothing else. -/
def cQuote : String → Option ℚ :=
  fun s => if s = cSym then some 5 else none

/-- Fixture lots for the carry-forward scenario: two one-share lots at
cost 100, bought on days 0 and 10. -/
def cLotX : Lot := ⟨cSym, some 1, 1, 100, 0⟩

/-- Second carry-forward fixture lot. -/
def cLotY : Lot := ⟨cSym, some 2, 1, 100, 10⟩

/-- Fixture store for the carry-forward scenario. -/
def cStoreB : List Lot := [cLotX, cLotY]

/-- Fixture quote source quoting 700 for every symbol, so each
carry-forward fixture lot carries an unrealized gain of 600. -/
def cQuote700 : String → Option ℚ := fun _ => some 700

/-- Fixture LotResult with an unrealized loss of 40. -/
def cLoss40 : LotResult :=
  { symbol := cSym, quantity := 1, price := 60, cost_per_share := 100,
    purchase_date := 0, holding_days := 10, term := Term.short,
    unrealized_gain := -40, est_tax_liability := 0, after_tax_value := 60,
    est_tax_savings := 12, days_to_lt := 356, price_missing := false }

/-- Fixture token string. -/
def cTok : String := "tok-123"

/-- Fixture client state holding a token, logged in. -/
def cAuthed : ClientState := ⟨some cTok, true⟩

/-- Fixture token response. -/
def cResp : TokenOut := ⟨"fresh-token", "bearer"⟩

/-- Fixture request config with no headers set. -/
def cCfg : RequestConfig := ⟨"/api/holdings", fun _ => none⟩

/-- Projection of an Except value onto its success payload, used to state
properties of the ok case without naming the whole record. -/
def okValue {ε α : Type} : Except ε α → Option α
  | Except.ok a => some a
  | Except.error _ => none

/-! ### Claim theorems -/

/-- Claim C6: with holding_days = as-of date − purchase date ≥ 0, the term
is long exactly when holding_days ≥ 366 and short otherwise,
days_to_lt = max(0, 366 − holding_days), days_to_lt + holding_days = 366
whenever the term is short, and days_to_lt = 0 whenever the term is
long. -/
theorem classification_spec :
    ∀ purchase asof : ℕ, purchase ≤ asof →
      (classifyTerm (holdingDays purchase asof) = Term.long ↔
        366 ≤ holdingDays purchase asof) ∧
      (classifyTerm (holdingDays purchase asof) = Term.short ↔
        holdingDays purchase asof < 366) ∧
      (classifyTerm (holdingDays purchase asof) = Term.short →
        daysToLT (holdingDays purchase asof) + holdingDays purchase asof = 366) ∧
      (classifyTerm (holdingDays purchase asof) = Term.long →
        daysToLT (holdingDays purchase asof) = 0) ∧
      ((daysToLT (holdingDays purchase asof) : ℤ) =
        max 0 (366 - (holdingDays purchase asof : ℤ))) := by
  intro purchase asof _
  unfold classifyTerm daysToLT
  refine ⟨?_, ?_, ?_, ?_, ?_⟩
  · split_ifs with h <;> simp_all
  · split_ifs with h <;> simp_all
  · split_ifs with h <;> simp_all
    all_goals omega
  · split_ifs with h <;> simp_all
  · rw [Int.max_def]
    split_ifs with h <;> omega

/-- Claim C6 witness: a purchase 400 days before the as-of date is
long-term with days_to_lt 0. -/
theorem classification_w :
    (classifyTerm (holdingDays 0 400) = Term.long ↔ 366 ≤ holdingDays 0 400) ∧
    (classifyTerm (holdingDays 0 400) = Term.short ↔ holdingDays 0 400 < 366) ∧
    (classifyTerm (holdingDays 0 400) = Term.short →
      daysToLT (holdingDays 0 400) + holdingDays 0 400 = 366) ∧
    (classifyTerm (holdingDays 0 400) = Term.long → daysToLT (holdingDays 0 400) = 0) ∧
    ((daysToLT (holdingDays 0 400) : ℤ) = max 0 (366 - (holdingDays 0 400 : ℤ))) :=
  classification_spec 0 400 (by omega)

/-- Claim C4: for a valid profile and non-negative carry-forward input,
estimate_tax returns a non-negative tax and a non-negative updated
carry-forward balance; a non-positive gain is taxed 0 with the loss
magnitude added to the balance reported back; a positive gain is taxed
at max(0, gain − carry_forward) × (federal+state rate for the term),
plus max(0, gain − carry_forward) × niit_rate when niit_rate > 0. -/
theorem estimate_tax_spec :
    ∀ (gain : ℚ) (t : Term) (p : TaxProfile) (cf : ℚ), p.Valid → 0 ≤ cf →
      0 ≤ (estimate_tax gain t p cf).1 ∧
      0 ≤ (estimate_tax gain t p cf).2 ∧
      (gain ≤ 0 → estimate_tax gain t p cf = (0, cf + (-gain))) ∧
      (0 < gain →
        estimate_tax gain t p cf =
          (max 0 (gain - cf) * rateFor p t +
            (if 0 < p.niit_rate then max 0 (gain - cf) * p.niit_rate else 0),
           max 0 (cf - gain))) := by
  intro gain t p cf hp hcf
  obtain ⟨h1, h2, h3, h4, h5, _⟩ := hp
  have hr : 0 ≤ rateFor p t := by
    cases t <;> simp [rateFor] <;> linarith
  by_cases hg : gain ≤ 0
  · refine ⟨?_, ?_, fun _ => by simp [estimate_tax, hg],
      fun hpos => absurd hpos (by linarith)⟩
    · simp [estimate_tax, hg]
    · simp [estimate_tax, hg]
      linarith
  · push_neg at hg
    have hne : ¬ gain ≤ 0 := by linarith
    refine ⟨?_, ?_, fun hle => absurd hle hne, fun _ => by simp [estimate_tax, hne]⟩
    · simp only [estimate_tax, hne, if_false]
      have hb : 0 ≤ max 0 (gain - cf) * rateFor p t :=
        mul_nonneg (le_max_left 0 _) hr
      have hn : 0 ≤ if 0 < p.niit_rate then max 0 (gain - cf) * p.niit_rate else 0 := by
        split_ifs with hpn
        · exact mul_nonneg (le_max_left 0 _) (le_of_lt hpn)
        · exact le_refl 0
      exact add_nonneg hb hn
    · simp only [estimate_tax, hne, if_false]
      exact le_max_left 0 _

/-- Claim C4 witness: gain 600 short-term with carry-forward 1000 under
the fixture profile is taxed 0 with balance 400 left. -/
theorem estimate_tax_w :
    0 ≤ (estimate_tax 600 Term.short cProfB 1000).1 ∧
    0 ≤ (estimate_tax 600 Term.short cProfB 1000).2 ∧
    ((600 : ℚ) ≤ 0 → estimate_tax 600 Term.short cProfB 1000 = (0, 1000 + (-600))) ∧
    ((0 : ℚ) < 600 →
      estimate_tax 600 Term.short cProfB 1000 =
        (max 0 (600 - 1000) * rateFor cProfB Term.short +
          (if 0 < cProfB.niit_rate then max 0 (600 - 1000) * cProfB.niit_rate else 0),
         max 0 (1000 - 600))) :=
  estimate_tax_spec 600 Term.short cProfB 1000
    (by norm_num [TaxProfile.Valid, cProfB]) (by norm_num)

/-- Claim C3: a simulate_sell request leaves the engine snapshot — in
particular every open lot's quantity — exactly as it was, whatever the
outcome: simulation is strictly read-only. -/
theorem simulate_sell_readonly_spec :
    ∀ (s : EngineState) (asof : ℕ) (sym : String) (qty : ℚ),
      (simulate_sell_run s asof sym qty).2 = s ∧
      (simulate_sell_run s asof sym qty).2.lots.map Lot.quantity =
        s.lots.map Lot.quantity ∧
      (simulate_sell_run s asof sym qty).1 =
        simulate_sell s.lots s.quotes s.profile asof sym qty :=
  fun _ _ _ _ => ⟨rfl, rfl, rfl⟩

/-- Claim C9: a 401 API response clears the stored token and returns the
client to the unauthenticated state while the error is still propagated;
any other status leaves the client state unchanged and also propagates
the error; successful responses pass through untouched. -/
theorem client_unauthorized_logout_spec :
    ∀ (α : Type) (s : ClientState) (e : ApiError),
      (e.status = 401 →
        @onResponse α s (Except.error e) =
          ({ token := none, authed := false }, Except.error e)) ∧
      (e.status ≠ 401 →
        @onResponse α s (Except.error e) = (s, Except.error e)) ∧
      (∀ r : α, @onResponse α s (Except.ok r) = (s, Except.ok r)) := by
  intro α s e
  refine ⟨fun h => ?_, fun h => ?_, fun r => rfl⟩
  · simp [onResponse, h]
  · simp [onResponse, h]

/-- Claim C9 witness: a 401 error received while logged in with a stored
token logs the client out, and a 500 error leaves it untouched. -/
theorem client_unauthorized_logout_w :
    @onResponse Unit cAuthed (Except.error ⟨401⟩) =
      ({ token := none, authed := false }, Except.error ⟨401⟩) ∧
    @onResponse Unit cAuthed (Except.error ⟨500⟩) =
      (cAuthed, Except.error ⟨500⟩) :=
  ⟨(client_unauthorized_logout_spec Unit cAuthed ⟨401⟩).1 rfl,
   (client_unauthorized_logout_spec Unit cAuthed ⟨500⟩).2.1 (by norm_num)⟩

/-- Claim C10: signup and login store the response's access_token before
returning the response, and the request interceptor attaches an
"Authorization: Bearer token" header to any request made while a token
is stored — in particular to requests made right after signup or
login. -/
theorem client_token_attach_spec :
    ∀ (s : ClientState) (resp : TokenOut) (cfg : RequestConfig) (t : String),
      ((signupStep s resp).1.token = some resp.access_token ∧
        (signupStep s resp).2 = resp) ∧
      ((loginStep s resp).1.token = some resp.access_token ∧
        (loginStep s resp).2 = resp) ∧
      (s.token = some t →
        (onRequest s cfg).headers authKey = some (bearerOf t)) ∧
      ((onRequest (signupStep s resp).1 cfg).headers authKey =
        some (bearerOf resp.access_token)) ∧
      ((onRequest (loginStep s resp).1 cfg).headers authKey =
        some (bearerOf resp.access_token)) := by
  intro s resp cfg t
  refine ⟨⟨rfl, rfl⟩, ⟨rfl, rfl⟩, fun h => ?_, ?_, ?_⟩
  · simp [onRequest, h]
  · simp [onRequest, signupStep, setToken]
  · simp [onRequest, loginStep, setToken]

/-- Claim C10 witness: with the fixture token stored, the interceptor
attaches its Bearer header to the fixture request. -/
theorem client_token_attach_w :
    (onRequest cAuthed cCfg).headers authKey = some (bearerOf cTok) :=
  (client_token_attach_spec cAuthed cResp cCfg cTok).2.2.1 rfl

/-- Claim C8: every LotResult produced by valuation — including the
zero-value sentinel for a symbol with no quote — satisfies
after_tax_value + est_tax_liability = quantity × price. -/
theorem after_tax_identity_spec :
    ∀ (store : List Lot) (quote : String → Option ℚ) (p : TaxProfile) (asof : ℕ)
      (r : LotResult), r ∈ valuation store quote p asof →
      r.after_tax_value + r.est_tax_liability = r.quantity * r.price := by
  intro store quote p asof r hr
  rcases List.mem_map.mp hr with ⟨lot, _, rfl⟩
  unfold valueLot
  rcases hq : quote lot.symbol with _ | price
  · simp
  · simp only []
    ring

/-- Claim C8 witness: the identity holds for the fixture lot valued with
the fixture quote and profile. -/
theorem after_tax_identity_w :
    (valueLot cQuote cProf0 400 cLotA).after_tax_value +
        (valueLot cQuote cProf0 400 cLotA).est_tax_liability =
      (valueLot cQuote cProf0 400 cLotA).quantity *
        (valueLot cQuote cProf0 400 cLotA).price :=
  after_tax_identity_spec [cLotA] cQuote cProf0 400 _ (by simp [valuation])

/-- Claim C2: when the requested quantity exceeds the total open quantity
for the symbol (the quote being present), simulate_sell fails with
InsufficientQuantityError and no partial WhatIfSell result is
returned. -/
theorem simulate_sell_insufficient_spec :
    ∀ (store : List Lot) (quote : String → Option ℚ) (p : TaxProfile) (asof : ℕ)
      (sym : String) (qty price : ℚ),
      quote sym = some price → totalOpenQty store sym < qty →
      simulate_sell store quote p asof sym qty =
        Except.error EngineError.InsufficientQuantityError ∧
      ∀ w : WhatIfSell, simulate_sell store quote p asof sym qty ≠ Except.ok w := by
  intro store quote p asof sym qty price hq hlt
  have h : simulate_sell store quote p asof sym qty =
      Except.error EngineError.InsufficientQuantityError := by
    unfold simulate_sell
    rw [hq]
    simp [hlt]
  exact ⟨h, fun w hw => by rw [h] at hw; cases hw⟩

/-- Claim C2 witness: with total open quantity 10 for the fixture symbol,
simulating a sale of 11 shares fails with InsufficientQuantityError. -/
theorem simulate_sell_insufficient_w :
    simulate_sell cStore1 cQuote cProf0 400 cSym 11 =
      Except.error EngineError.InsufficientQuantityError ∧
    ∀ w : WhatIfSell, simulate_sell cStore1 cQuote cProf0 400 cSym 11 ≠ Except.ok w :=
  simulate_sell_insufficient_spec cStore1 cQuote cProf0 400 cSym 11 5
    (by simp [cQuote])
    (by norm_num [totalOpenQty, cStore1, cLotA])

/-- Claim C7: harvest_candidates returns exactly the lots with negative
unrealized gain whose loss magnitude is at least min_loss, sorted by
descending loss magnitude with ties broken by ascending days_to_lt,
truncated to at most limit entries; and a lot with unrealized loss 40 is
excluded when min_loss = 50 but included when min_loss = 30. -/
theorem harvest_candidates_spec :
    (∀ (results : List LotResult) (limit : ℕ) (minLoss : ℚ),
      harvest_candidates results limit minLoss =
        (List.insertionSort harvestLe
          ((results.filter (harvestEligible minLoss)).map toCandidate)).take limit ∧
      List.Pairwise harvestLe (harvest_candidates results limit minLoss) ∧
      (List.insertionSort harvestLe
          ((results.filter (harvestEligible minLoss)).map toCandidate)).Perm
        ((results.filter (harvestEligible minLoss)).map toCandidate) ∧
      (∀ r : LotResult,
        harvestEligible minLoss r = true ↔
          (r.unrealized_gain < 0 ∧ minLoss ≤ -r.unrealized_gain)) ∧
      (harvest_candidates results limit minLoss).length ≤ limit) ∧
    harvest_candidates [cLoss40] 10 50 = [] ∧
    harvest_candidates [cLoss40] 10 30 = [toCandidate cLoss40] := by
  refine ⟨fun results limit minLoss => ⟨rfl, ?_, ?_, ?_, ?_⟩, ?_, ?_⟩
  · exact List.Pairwise.sublist (List.take_sublist _ _)
      (List.sorted_insertionSort harvestLe _)
  · exact List.perm_insertionSort harvestLe _
  · intro r
    simp [harvestEligible]
  · exact (List.length_take_le _ _).trans (le_refl _)
  · norm_num [harvest_candidates, harvestEligible, cLoss40]
  · norm_num [harvest_candidates, harvestEligible, cLoss40,
      List.insertionSort, List.orderedInsert]

/-- Helper for C1: the FIFO walk consumes exactly the requested quantity
whenever the lots can cover it (each step takes min(lot quantity,
remaining)). -/
theorem consumeLots_qty_sum (price : ℚ) (asof : ℕ) (p : TaxProfile) :
    ∀ (lots : List Lot) (remaining cf : ℚ),
      (∀ l ∈ lots, 0 ≤ l.quantity) → 0 ≤ remaining →
      remaining ≤ (lots.map Lot.quantity).sum →
      ((consumeLots price asof p lots remaining cf).map ConsumedLot.qty_used).sum
        = remaining := by
  intro lots
  induction lots with
  | nil =>
    intro remaining cf _ h0 hle
    simp only [List.map_nil, List.sum_nil] at hle
    simp [consumeLots]
    linarith
  | cons lot rest ih =>
    intro remaining cf hq h0 hle
    by_cases hr : remaining ≤ 0
    · have hz : remaining = 0 := le_antisymm hr h0
      simp [consumeLots, hr, hz]
    · push_neg at hr
      simp only [List.map_cons, List.sum_cons] at hle
      have hrest : ∀ l ∈ rest, 0 ≤ l.quantity :=
        fun l hl => hq l (List.mem_cons_of_mem _ hl)
      have hsum0 : 0 ≤ (rest.map Lot.quantity).sum := by
        apply List.sum_nonneg
        intro x hx
        rcases List.mem_map.mp hx with ⟨l, hl, rfl⟩
        exact hrest l hl
      have h0' : 0 ≤ remaining - min lot.quantity remaining := by
        have := min_le_right lot.quantity remaining
        linarith
      have hle' : remaining - min lot.quantity remaining ≤
          (rest.map Lot.quantity).sum := by
        rcases le_total lot.quantity remaining with hc | hc
        · rw [min_eq_left hc]
          linarith
        · rw [min_eq_right hc]
          simpa using hsum0
      simp only [consumeLots, if_neg (not_le.mpr hr), List.map_cons, List.sum_cons]
      rw [ih (remaining - min lot.quantity remaining) _ hrest h0' hle']
      ring

/-- Claim C1: for a positive requested quantity covered by the open lots
(and a present quote), simulate_sell succeeds; its lots_consumed is the
min-per-lot FIFO walk over the open lots of the symbol sorted ascending
by purchase date (a permutation of exactly those lots), and the
walk consumes the requested quantity in total; in the two-lot fixture
(10 shares bought on day 0, 10 on day 151) a sale of 12 consumes 10 from
the older lot and then 2 from the newer, in that order. -/
theorem simulate_sell_fifo_spec :
    (∀ (store : List Lot) (quote : String → Option ℚ) (p : TaxProfile) (asof : ℕ)
      (sym : String) (qty price : ℚ),
      quote sym = some price →
      (∀ l ∈ store, 0 ≤ l.quantity) →
      0 < qty → qty ≤ totalOpenQty store sym →
      ∃ w, simulate_sell store quote p asof sym qty = Except.ok w ∧
        w.lots_consumed =
          consumeLots price asof p (openLotsFifo store sym) qty
            p.carry_forward_losses ∧
        List.Pairwise fifoLe (openLotsFifo store sym) ∧
        (openLotsFifo store sym).Perm (store.filter (fun l => l.symbol == sym)) ∧
        (w.lots_consumed.map ConsumedLot.qty_used).sum = qty) ∧
    (okValue (simulate_sell cStore cQuote cProf0 400 cSym 12)).map
        (fun w => w.lots_consumed.map (fun c => (c.lot_id, c.qty_used))) =
      some [(some 1, 10), (some 2, 2)] := by
  constructor
  · intro store quote p asof sym qty price hq hqty hpos hle
    have hperm := List.perm_insertionSort fifoLe
      (store.filter (fun l => l.symbol == sym))
    have hnot : ¬ totalOpenQty store sym < qty := not_lt.mpr hle
    refine
      ⟨{ symbol := sym, sell_quantity := qty, asof_price := price,
         realized_gain :=
           ((consumeLots price asof p (openLotsFifo store sym) qty
             p.carry_forward_losses).map ConsumedLot.realized_gain).sum,
         est_tax :=
           ((consumeLots price asof p (openLotsFifo store sym) qty
             p.carry_forward_losses).map ConsumedLot.est_tax).sum,
         lots_consumed :=
           consumeLots price asof p (openLotsFifo store sym) qty
             p.carry_forward_losses },
        ?_, rfl, ?_, hperm, ?_⟩
    · unfold simulate_sell
      rw [hq]
      simp [hnot]
    · exact List.sorted_insertionSort fifoLe _
    · apply consumeLots_qty_sum
      · intro l hl
        have hmem : l ∈ store.filter (fun l => l.symbol == sym) :=
          hperm.mem_iff.mp hl
        exact hqty l (List.mem_filter.mp hmem).1
      · exact le_of_lt hpos
      · have hsums : ((openLotsFifo store sym).map Lot.quantity).sum =
            totalOpenQty store sym :=
          (hperm.map Lot.quantity).sum_eq
        rw [hsums]
        exact hle
  · norm_num [simulate_sell, cQuote, cSym, totalOpenQty, cStore, cLotA, cLotB,
      openLotsFifo, List.insertionSort, List.orderedInsert, fifoLe, consumeLots,
      estimate_tax, rateFor, classifyTerm, holdingDays, cProf0, okValue,
      min_def, max_def]

/-- Claim C1 witness: the general FIFO statement instantiated on the
two-lot fixture with a request of 12 shares. -/
theorem simulate_sell_fifo_w :
    ∃ w, simulate_sell cStore cQuote cProf0 400 cSym 12 = Except.ok w ∧
      w.lots_consumed =
        consumeLots 5 400 cProf0 (openLotsFifo cStore cSym) 12
          cProf0.carry_forward_losses ∧
      List.Pairwise fifoLe (openLotsFifo cStore cSym) ∧
      (openLotsFifo cStore cSym).Perm
        (cStore.filter (fun l => l.symbol == cSym)) ∧
      (w.lots_consumed.map ConsumedLot.qty_used).sum = 12 :=
  simulate_sell_fifo_spec.1 cStore cQuote cProf0 400 cSym 12 5
    (by simp [cQuote])
    (by
      intro l hl
      simp only [cStore, List.mem_cons, List.not_mem_nil, or_false] at hl
      rcases hl with rfl | rfl <;> norm_num [cLotA, cLotB])
    (by norm_num)
    (by norm_num [totalOpenQty, cStore, cLotA, cLotB, cSym])

/-- Helper for C5: a valued lot with a positive unrealized gain carries no
est_tax_savings. -/
theorem valueLot_savings_of_pos (quote : String → Option ℚ) (p : TaxProfile)
    (asof : ℕ) (lot : Lot) :
    0 < (valueLot quote p asof lot).unrealized_gain →
    (valueLot quote p asof lot).est_tax_savings = 0 := by
  intro h
  rcases hq : quote lot.symbol with _ | price
  · simp [valueLot, hq] at h
  · simp only [valueLot, hq] at h ⊢
    rw [if_neg (not_lt.mpr (le_of_lt h))]

/-- Helper for C5: over lots that are all short-term with positive gains
and no savings, the shared carry-forward pass yields total tax
effRate × max(0, total gain − carry-forward) — the carry-forward is
consumed once across the whole walk. -/
theorem passStep_foldl_short (p : TaxProfile) :
    ∀ (rs : List LotResult) (t s cf : ℚ), 0 ≤ cf →
      (∀ r ∈ rs,
        0 < r.unrealized_gain ∧ r.term = Term.short ∧ r.est_tax_savings = 0) →
      rs.foldl (passStep p) (t, s, cf) =
        (t + effRate p Term.short *
            max 0 ((rs.map LotResult.unrealized_gain).sum - cf),
         s, max 0 (cf - (rs.map LotResult.unrealized_gain).sum)) := by
  intro rs
  induction rs with
  | nil =>
    intro t s cf hcf _
    rw [List.foldl_nil, List.map_nil, List.sum_nil,
      max_eq_left (by linarith : (0:ℚ) - cf ≤ 0),
      max_eq_right (by linarith : (0:ℚ) ≤ cf - 0)]
    simp
  | cons r rest ih =>
    intro t s cf hcf hall
    obtain ⟨hg, hterm, hsav⟩ := hall r (List.mem_cons_self _ _)
    have hrest := fun x hx => hall x (List.mem_cons_of_mem _ hx)
    have hS : 0 ≤ (rest.map LotResult.unrealized_gain).sum := by
      apply List.sum_nonneg
      intro x hx
      rcases List.mem_map.mp hx with ⟨r', hr', rfl⟩
      exact le_of_lt (hrest r' hr').1
    have hstep : passStep p (t, s, cf) r =
        (t + effRate p Term.short * max 0 (r.unrealized_gain - cf),
         s, max 0 (cf - r.unrealized_gain)) := by
      unfold passStep
      rw [hterm, hsav]
      have hne : ¬ r.unrealized_gain ≤ 0 := by linarith
      simp only [estimate_tax, hne, if_false, effRate]
      split_ifs with hn <;> simp [Prod.mk.injEq] <;> ring
    rw [List.foldl_cons, hstep,
      ih _ _ _ (le_max_left 0 (cf - r.unrealized_gain)) hrest,
      List.map_cons, List.sum_cons]
    rcases le_total cf r.unrealized_gain with hc | hc
    · rw [max_eq_left (by linarith : cf - r.unrealized_gain ≤ 0),
        max_eq_right (by linarith : (0:ℚ) ≤ r.unrealized_gain - cf),
        max_eq_right (by linarith : (0:ℚ) ≤
          (rest.map LotResult.unrealized_gain).sum - 0),
        max_eq_right (by linarith : (0:ℚ) ≤
          r.unrealized_gain + (rest.map LotResult.unrealized_gain).sum - cf),
        max_eq_left (by linarith :
          cf - (r.unrealized_gain + (rest.map LotResult.unrealized_gain).sum) ≤ 0),
        max_eq_left (by linarith :
          (0:ℚ) - (rest.map LotResult.unrealized_gain).sum ≤ 0)]
      simp [Prod.mk.injEq]
      ring
    · rw [max_eq_left (by linarith : r.unrealized_gain - cf ≤ 0),
        max_eq_right (by linarith : (0:ℚ) ≤ cf - r.unrealized_gain)]
      have e1 : (rest.map LotResult.unrealized_gain).sum -
          (cf - r.unrealized_gain) =
          r.unrealized_gain + (rest.map LotResult.unrealized_gain).sum - cf := by
        ring
      have e2 : cf - r.unrealized_gain - (rest.map LotResult.unrealized_gain).sum =
          cf - (r.unrealized_gain + (rest.map LotResult.unrealized_gain).sum) := by
        ring
      rw [e1, e2]
      simp [Prod.mk.injEq]

/-- Claim C5: the Summary's net tax figure comes from one shared
carry-forward pass over the lots in ascending purchase-date order, so
for an all-short-term all-gain portfolio it equals
effRate × max(0, total gain − carry_forward_losses): the profile's
carry-forward is applied once across the whole portfolio; with
carry_forward_losses 1000 and two short-term lots of gain 600 each the
net tax is 60 — the 1000 offset spans the pair — while the per-lot
est_tax_liability values sum to 0, so the net tax is not the sum of the
per-lot figures. -/
theorem summary_shared_carryforward_spec :
    (∀ (store : List Lot) (quote : String → Option ℚ) (p : TaxProfile) (asof : ℕ),
      p.Valid →
      (∀ r ∈ valuation store quote p asof,
        0 < r.unrealized_gain ∧ r.term = Term.short) →
      (summaryOf store quote p asof).naive_net_tax_if_liquidated_now =
        effRate p Term.short *
          max 0 (((valuation store quote p asof).map LotResult.unrealized_gain).sum
            - p.carry_forward_losses)) ∧
    ((summaryOf cStoreB cQuote700 cProfB 100).naive_net_tax_if_liquidated_now = 60 ∧
      ((valuation cStoreB cQuote700 cProfB 100).map LotResult.est_tax_liability).sum
        = 0 ∧
      (summaryOf cStoreB cQuote700 cProfB 100).naive_net_tax_if_liquidated_now ≠
        ((valuation cStoreB cQuote700 cProfB 100).map
          LotResult.est_tax_liability).sum) := by
  constructor
  · intro store quote p asof hp hall
    obtain ⟨h1, _, h3, _, h5, h6⟩ := hp
    have hall' : ∀ r ∈ List.insertionSort resultDateLe (valuation store quote p asof),
        0 < r.unrealized_gain ∧ r.term = Term.short ∧ r.est_tax_savings = 0 := by
      intro r hr
      have hmem : r ∈ valuation store quote p asof :=
        (List.perm_insertionSort resultDateLe _).mem_iff.mp hr
      obtain ⟨hg, ht⟩ := hall r hmem
      refine ⟨hg, ht, ?_⟩
      have hmem' : r ∈ store.map (valueLot quote p asof) := hmem
      rcases List.mem_map.mp hmem' with ⟨lot, _, rfl⟩
      exact valueLot_savings_of_pos quote p asof lot hg
    have he : 0 ≤ effRate p Term.short := by
      unfold effRate rateFor
      split_ifs <;> simp <;> linarith
    simp only [summaryOf]
    rw [passStep_foldl_short p
      (List.insertionSort resultDateLe (valuation store quote p asof))
      0 0 p.carry_forward_losses h6 hall']
    have hsum : ((List.insertionSort resultDateLe
          (valuation store quote p asof)).map LotResult.unrealized_gain).sum =
        ((valuation store quote p asof).map LotResult.unrealized_gain).sum :=
      ((List.perm_insertionSort resultDateLe _).map LotResult.unrealized_gain).sum_eq
    rw [hsum, zero_add, sub_zero]
    exact max_eq_right (mul_nonneg he (le_max_left _ _))
  · norm_num [summaryOf, valuation, valueLot, estimate_tax, classifyTerm,
      holdingDays, daysToLT, effRate, rateFor, passStep, List.insertionSort,
      List.orderedInsert, resultDateLe, cStoreB, cLotX, cLotY, cQuote700, cProfB,
      min_def, max_def]

/-- Claim C5 witness: the shared-pass formula instantiated on the
carry-forward fixture portfolio. -/
theorem summary_shared_carryforward_w :
    (summaryOf cStoreB cQuote700 cProfB 100).naive_net_tax_if_liquidated_now =
      effRate cProfB Term.short *
        max 0 (((valuation cStoreB cQuote700 cProfB 100).map
          LotResult.unrealized_gain).sum - cProfB.carry_forward_losses) :=
  summary_shared_carryforward_spec.1 cStoreB cQuote700 cProfB 100
    (by norm_num [TaxProfile.Valid, cProfB])
    (by
      intro r hr
      simp only [valuation, cStoreB, List.map_cons, List.map_nil, List.mem_cons,
        List.not_mem_nil, or_false] at hr
      rcases hr with rfl | rfl <;>
        norm_num [valueLot, cQuote700, cLotX, cLotY, classifyTerm, holdingDays,
          cProfB])
